import Mathlib

/-!
Verification development for the HLG2Phone transcoding core
(`transcode_core.py` and the worker/queue logic of `sonyToPhoto.py`).

The Python source is shallowly embedded: pure functions become Lean
functions, the stateful queue controller becomes explicit state passing,
external-process exit codes become an oracle `Option String → Int`
(the argument is the encoder choice the command was built for, `none`
meaning the CPU encoder), and Python string primitives (`strip`,
`endswith`, slicing, `in`, `%04d` formatting) are modelled by the
`py…` helpers below, operating on the underlying character lists.
-/

/-- Model of Python `str.strip()`: remove leading and trailing whitespace. -/
def pyStrip (s : String) : String :=
  String.mk (((s.data.dropWhile Char.isWhitespace).reverse.dropWhile
    Char.isWhitespace).reverse)

/-- Model of Python `s.endswith(t)`. -/
def pyEndsWith (s t : String) : Bool :=
  t.data.isSuffixOf s.data

/-- Model of Python `s[:-n]` (for `0 < n ≤ len(s)`; clamps like Python). -/
def pyDropRight (s : String) (n : Nat) : String :=
  String.mk (s.data.take (s.data.length - n))

/-- Boolean substring test on character lists (Python `needle in hay`). -/
def containsChars (needle : List Char) : List Char → Bool
  | [] => needle.isEmpty
  | c :: rest => needle.isPrefixOf (c :: rest) || containsChars needle rest

/-- Model of Python `needle in s` for strings. -/
def pyContains (s needle : String) : Bool :=
  containsChars needle.data s.data

/-- Model of Python `str.lower()`. -/
def pyLower (s : String) : String :=
  String.mk (s.data.map Char.toLower)

/-- Model of Python `f"{n:04d}"` for a natural number. -/
def pyFormat04d (n : Nat) : String :=
  String.mk (List.replicate (4 - (Nat.repr n).length) '0') ++ Nat.repr n

/-- The x265 parameter string of `build_ffmpeg_cmd` /
`build_ffmpeg_cmd_gpu` (HEVC CPU path), carrying the fixed HLG color
tags. -/
def x265_params : String :=
  "profile=main10:level=5.1:colorprim=bt2020:transfer=arib-std-b67:colormatrix=bt2020nc"

/-- The x264 parameter string of `build_ffmpeg_cmd_gpu` (H.264 CPU
path), carrying the fixed HLG color tags. -/
def x264_params : String :=
  "profile=high:level=5.1:colorprim=bt2020:transfer=arib-std-b67:colormatrix=bt2020nc"

/-- The explicit HLG color-tag arguments every hardware-encoder branch of
`build_ffmpeg_cmd_gpu` appends after its encoder-specific flags. -/
def hlg_color_args : List String :=
  ["-color_primaries", "bt2020", "-color_trc", "arib-std-b67",
   "-colorspace", "bt2020nc"]

/-- Embedding of `transcode_core.build_ffmpeg_cmd`.  `crf` is the
quality factor rendered with `str` in the source; `fps` holds the
already-rendered `str(fps)` when a target frame rate was given. -/
def build_ffmpeg_cmd (ffmpeg in_file out_file : String) (crf : Nat)
    (preset : String) (fps : Option String) (audio_bitrate : String)
    (overwrite : Bool) : List String :=
  [ffmpeg, "-hide_banner", if overwrite then "-y" else "-n",
   "-i", in_file, "-map", "0:v:0", "-map", "0:a?",
   "-c:v", "libx265", "-preset", preset, "-crf", Nat.repr crf,
   "-pix_fmt", "yuv420p10le", "-x265-params", x265_params,
   "-tag:v", "hvc1", "-c:a", "aac", "-b:a", audio_bitrate,
   "-movflags", "+faststart"]
  ++ (match fps with | some f => ["-r", f] | none => [])
  ++ [out_file]

/-- The encoder-selection block of `sonyToPhoto.build_ffmpeg_cmd_gpu`:
the video-codec arguments chosen by the nested `if` chain on
`gpu_encoder` and `codec`.  Every recognized hardware branch ends with
the explicit `hlg_color_args`; the CPU and unrecognized-encoder branches
carry the tags inside `x265_params` / `x264_params` instead. -/
def gpu_encoder_video_args (codec : String) (crf : Nat) (preset : String)
    (gpu_encoder : Option String) : List String :=
  match gpu_encoder with
  | some enc =>
    if codec == "hevc" then
      if enc == "h265_nvenc" then
        ["-c:v", "h265_nvenc", "-preset", pyLower preset,
         "-cq", Nat.repr crf, "-pix_fmt", "yuv420p10le"] ++ hlg_color_args
      else if enc == "hevc_amf" then
        ["-c:v", "hevc_amf", "-quality", "quality", "-rc", "cqp",
         "-qmin", Nat.repr crf, "-qmax", Nat.repr crf,
         "-pix_fmt", "p010le"] ++ hlg_color_args
      else if enc == "hevc_qsv" then
        ["-c:v", "hevc_qsv", "-preset", pyLower preset,
         "-crf", Nat.repr crf, "-pix_fmt", "yuv420p10le"] ++ hlg_color_args
      else if enc == "hevc_videotoolbox" then
        ["-c:v", "hevc_videotoolbox", "-quality", "medium",
         "-crf", Nat.repr crf, "-pix_fmt", "yuv420p10le"] ++ hlg_color_args
      else
        ["-c:v", "libx265", "-preset", preset, "-crf", Nat.repr crf,
         "-pix_fmt", "yuv420p10le", "-x265-params", x265_params]
    else
      if pyContains enc "nvenc" || pyContains enc "h264_nvenc" then
        ["-c:v", "h264_nvenc", "-preset", pyLower preset,
         "-cq", Nat.repr crf, "-pix_fmt", "yuv420p"] ++ hlg_color_args
      else if pyContains enc "amf" || pyContains enc "h264_amf" then
        ["-c:v", "h264_amf", "-quality", "quality", "-rc", "cqp",
         "-qmin", Nat.repr crf, "-qmax", Nat.repr crf,
         "-pix_fmt", "yuv420p"] ++ hlg_color_args
      else if pyContains enc "qsv" || pyContains enc "h264_qsv" then
        ["-c:v", "h264_qsv", "-preset", pyLower preset,
         "-crf", Nat.repr crf, "-pix_fmt", "yuv420p"] ++ hlg_color_args
      else if pyContains enc "videotoolbox" || pyContains enc "h264_videotoolbox" then
        ["-c:v", "h264_videotoolbox", "-quality", "medium",
         "-crf", Nat.repr crf, "-pix_fmt", "yuv420p"] ++ hlg_color_args
      else
        ["-c:v", "libx264", "-preset", preset, "-crf", Nat.repr crf,
         "-pix_fmt", "yuv420p", "-x264-params", x264_params]
  | none =>
    if codec == "hevc" then
      ["-c:v", "libx265", "-preset", preset, "-crf", Nat.repr crf,
       "-pix_fmt", "yuv420p10le", "-x265-params", x265_params]
    else
      ["-c:v", "libx264", "-preset", preset, "-crf", Nat.repr crf,
       "-pix_fmt", "yuv420p", "-x264-params", x264_params]

/-- Embedding of `sonyToPhoto.build_ffmpeg_cmd_gpu`. -/
def build_ffmpeg_cmd_gpu (ffmpeg in_file out_file codec : String)
    (crf : Nat) (preset : String) (fps : Option String)
    (audio_bitrate : String) (overwrite : Bool)
    (gpu_encoder : Option String) : List String :=
  [ffmpeg, "-hide_banner", if overwrite then "-y" else "-n",
   "-i", in_file, "-map", "0:v:0", "-map", "0:a?"]
  ++ gpu_encoder_video_args codec crf preset gpu_encoder
  ++ ["-tag:v", if codec == "hevc" then "hvc1" else "avc1",
      "-c:a", "aac", "-b:a", audio_bitrate, "-movflags", "+faststart"]
  ++ (match fps with | some f => ["-r", f] | none => [])
  ++ [out_file]

/-- The HLG color tags are present in a command line, either as the
explicit argument run `-color_primaries … -color_trc … -colorspace …`
or inside a parameter-string argument containing all three tag
assignments. -/
def has_hlg_color_tags (cmd : List String) : Prop :=
  hlg_color_args <:+: cmd ∨
    ∃ s ∈ cmd, pyContains s "colorprim=bt2020" = true ∧
      pyContains s "transfer=arib-std-b67" = true ∧
      pyContains s "colormatrix=bt2020nc" = true

/-- The HEVC hardware-encoder priority order of `process_file`
(`h265_nvenc` = NVIDIA, `hevc_qsv` = Intel, `hevc_amf` = AMD). -/
def hevc_priority_order : List String :=
  ["h265_nvenc", "hevc_qsv", "hevc_amf"]

/-- The H.264 hardware-encoder priority order of `process_file`
(`h264_nvenc` = NVIDIA, `h264_qsv` = Intel, `h264_amf` = AMD). -/
def h264_priority_order : List String :=
  ["h264_nvenc", "h264_qsv", "h264_amf"]

/-- The priority order chosen by `process_file` for the given codec. -/
def priority_order (codec : String) : List String :=
  if codec == "hevc" then hevc_priority_order else h264_priority_order

/-- The loop of `process_file` that appends each priority-order encoder
that was detected and not already collected. -/
def add_priority_encoders (keys : List String) (acc : List String) :
    List String → List String
  | [] => acc
  | p :: rest =>
    if p ∈ keys ∧ p ∉ acc then add_priority_encoders keys (acc ++ [p]) rest
    else add_priority_encoders keys acc rest

/-- Candidate-list construction of `process_file` when
`detect_gpu_encoders` returned `detected` (pairs of encoder key and
display name): the requested encoder first when detected, then the
other detected encoders in priority order, `[none]` (the CPU marker)
when nothing qualifies. -/
def available_gpu_encoders (codec requested : String)
    (detected : List (String × String)) : List (Option String) :=
  let keys := detected.map Prod.fst
  let first := if requested ∈ keys then [requested] else []
  let avail := add_priority_encoders keys first (priority_order codec)
  if avail.isEmpty then [none] else avail.map some

/-- Candidate selection of `process_file` including the `except` branch:
`probe = none` models `detect_gpu_encoders` raising, in which case the
code falls back to just the originally requested encoder. -/
def select_candidates (codec requested : String)
    (probe : Option (List (String × String))) : List (Option String) :=
  match probe with
  | none => [some requested]
  | some detected => available_gpu_encoders codec requested detected

/-- The `encoder_name_map` of `process_file`, mapping an encoder
identifier to its vendor brand (default `Unknown`). -/
def encoder_brand (e : String) : String :=
  if e == "h265_nvenc" then "NVIDIA"
  else if e == "h264_nvenc" then "NVIDIA"
  else if e == "hevc_qsv" then "Intel"
  else if e == "h264_qsv" then "Intel"
  else if e == "hevc_amf" then "AMD"
  else if e == "h264_amf" then "AMD"
  else "Unknown"

/-- Success message of `process_file` when the originally requested GPU
encoder succeeded. -/
def ok_gpu_msg (name : String) : String :=
  "OK (GPU): " ++ name

/-- Success message of `process_file` when a different hardware encoder
succeeded (names the brand of the encoder actually used). -/
def ok_brand_fallback_msg (brand name : String) : String :=
  "OK (" ++ brand ++ "回退): " ++ name

/-- Success message of `process_file` for the CPU fallback. -/
def ok_cpu_fallback_msg (name : String) : String :=
  "OK (CPU回退): " ++ name

/-- Failure message of `process_file` after every encoder failed,
carrying the exit code of the final CPU run. -/
def failed_all_msg (name : String) (rc : Int) : String :=
  "FAILED (所有编码器都失败): " ++ name ++ " (exit code " ++ toString rc ++ ")"

/-- Outcome of one `process_file` execution: the `(success, message)`
pair the function returns, plus the encoder passed to
`save_last_gpu_encoder_global` (which persists it under the key
`last_gpu_encoder_<codec>`), `none` when nothing was saved. -/
structure ExecResult where
  success : Bool
  message : String
  saved_encoder : Option String
  deriving Repr, DecidableEq

/-- The CPU-fallback run of `process_file` (both the in-loop `None`
marker branch and the after-loop fallback are this same code).  The
`exitCode` oracle gives the external run's exit code for each encoder
choice, `none` standing for the CPU command. -/
def run_cpu_fallback (exitCode : Option String → Int) (name : String) :
    ExecResult :=
  if exitCode none == 0 then ⟨true, ok_cpu_fallback_msg name, none⟩
  else ⟨false, failed_all_msg name (exitCode none), none⟩

/-- The encoder-fallback loop of `process_file` over the candidate list:
the first candidate whose run exits 0 is saved and reported; a `none`
candidate (CPU marker) and an exhausted list both run the CPU
fallback. -/
def try_encoders (exitCode : Option String → Int) (requested name : String) :
    List (Option String) → ExecResult
  | [] => run_cpu_fallback exitCode name
  | none :: _ => run_cpu_fallback exitCode name
  | some enc :: rest =>
    if exitCode (some enc) == 0 then
      ⟨true,
        if enc == requested then ok_gpu_msg name
        else ok_brand_fallback_msg (encoder_brand enc) name,
        some enc⟩
    else try_encoders exitCode requested name rest

/-- GPU path of `process_file`: select the candidate list from the probe
result, then iterate the fallback chain. -/
def process_file_gpu (exitCode : Option String → Int)
    (codec requested name : String)
    (probe : Option (List (String × String))) : ExecResult :=
  try_encoders exitCode requested name (select_candidates codec requested probe)

/-- The existence check at the top of `process_file` (both
implementations): `skip` result produced when the output exists,
overwrite is off and skip-existing is on. -/
def skip_check (out_name : String)
    (out_exists overwrite skip_existing : Bool) : Option (Bool × String) :=
  if out_exists && !overwrite then
    if skip_existing then some (true, "SKIP (exists): " ++ out_name)
    else none
  else none

/-- Top-level shape of `process_file` around the existence check: either
return the skip outcome without running anything external, or run the
transcode (`run_result` abstracts the rest of the function).  The
second component records whether an external command was reached. -/
def process_file_top (out_name : String)
    (out_exists overwrite skip_existing : Bool)
    (run_result : Bool × String) : (Bool × String) × Bool :=
  match skip_check out_name out_exists overwrite skip_existing with
  | some r => (r, false)
  | none => (run_result, true)

/-- The `base_name.endswith('.mp4')` stripping step of the naming
code. -/
def strip_mp4 (s : String) : String :=
  if pyEndsWith s ".mp4" then pyDropRight s 4 else s

/-- The output-name computation of `sonyToPhoto.process_file`
(before appending the `.mp4` extension).  `ts` is the rendered
`datetime.now().strftime('%Y%m%d_%H%M%S')` value. -/
def resolve_base_name (stem : String) (keep_original_name custom_filename : Bool)
    (custom_filename_text : String) (add_timestamp : Bool) (ts : String)
    (custom_suffix : String) : String :=
  let base :=
    if custom_filename && !(custom_filename_text == "") then
      strip_mp4 (pyStrip custom_filename_text)
    else if keep_original_name then stem
    else "video_" ++ ts
  let base2 := if add_timestamp then base ++ "_" ++ ts else base
  if !(custom_suffix == "") then base2 ++ custom_suffix else base2

/-- The per-file custom-text computation of `process_files_sequential`:
with the custom-filename policy and more than one file, the stripped
custom text gets a 4-digit, 1-based sequence number appended
(`i` is the 0-based loop index). -/
def sequential_custom_text (custom_filename : Bool)
    (custom_filename_text : String) (num_files i : Nat) : String :=
  if custom_filename && decide (1 < num_files) then
    strip_mp4 (pyStrip custom_filename_text) ++ "_" ++ pyFormat04d (i + 1)
  else custom_filename_text

/-- Resolved base name of the file at 0-based position `i` in a
sequential batch of `num_files` files. -/
def sequential_resolved_name (stem : String)
    (keep_original_name custom_filename : Bool) (custom_filename_text : String)
    (add_timestamp : Bool) (ts custom_suffix : String)
    (num_files i : Nat) : String :=
  resolve_base_name stem keep_original_name custom_filename
    (sequential_custom_text custom_filename custom_filename_text num_files i)
    add_timestamp ts custom_suffix

/-- Resolved base name of the file at 0-based position `i` in a parallel
batch: `process_files_parallel` passes `custom_filename_text` to
`process_file` unchanged for every file, so the position `i` is unused
by the source. -/
def parallel_resolved_name (stem : String)
    (keep_original_name custom_filename : Bool) (custom_filename_text : String)
    (add_timestamp : Bool) (ts custom_suffix : String) (i : Nat) : String :=
  resolve_base_name stem keep_original_name custom_filename
    custom_filename_text add_timestamp ts custom_suffix

/-- The three aggregate counters: which one a finished file increments. -/
inductive CounterKind where
  | okKind
  | failKind
  | skippedKind
  deriving Repr, DecidableEq

/-- The classification inside `update_counters` (and the identical
sequential-mode branch): a message containing the substring `SKIP`
counts as skipped, tested before the success flag. -/
def classify_result (success : Bool) (message : String) : CounterKind :=
  if pyContains message "SKIP" then CounterKind.skippedKind
  else if success then CounterKind.okKind
  else CounterKind.failKind

/-- One lock-protected `update_counters` call on the `(ok, fail,
skipped)` triple. -/
def update_counters (c : Nat × Nat × Nat) (r : Bool × String) :
    Nat × Nat × Nat :=
  match classify_result r.1 r.2 with
  | CounterKind.skippedKind => (c.1, c.2.1, c.2.2 + 1)
  | CounterKind.okKind => (c.1 + 1, c.2.1, c.2.2)
  | CounterKind.failKind => (c.1, c.2.1 + 1, c.2.2)

/-- Final counters of a parallel batch: every worker performs exactly
one lock-protected `update_counters` call, so the aggregate state is
the fold of `update_counters` over the per-file results in completion
order. -/
def batch_counts (results : List (Bool × String)) : Nat × Nat × Nat :=
  results.foldl update_counters (0, 0, 0)

/-- Sum of the three counters. -/
def counter_total (c : Nat × Nat × Nat) : Nat :=
  c.1 + c.2.1 + c.2.2

/-- The dispatch loop of `process_files_parallel`.  `alive t` tells
whether the worker thread with id `t` is still running (the adversarial
completion schedule); `threads` is the thread list; `ids` the ids of the
files still to dispatch.  When the list has reached `max_threads`, the
source makes a single scan for a finished thread, joins and removes the
first one found, and then starts the next worker in every case. -/
def dispatch_loop (alive : Nat → Bool) (max_threads : Nat) :
    List Nat → List Nat → List Nat
  | threads, [] => threads
  | threads, tid :: rest =>
    let threads1 :=
      if max_threads ≤ threads.length then
        match threads.find? (fun t => !alive t) with
        | some t => threads.erase t
        | none => threads
      else threads
    dispatch_loop alive max_threads (threads1 ++ [tid]) rest

/-- State of the GUI task-queue controller relevant to `stop_task_queue`:
per-task display statuses, the current queue position, the running
flags, whether the `TranscodeWorker` QThread is running, and whether the
ffmpeg child process started by `transcode_core.run` is running. -/
structure QueueState where
  task_status : List String
  current_task_index : Nat
  is_queue_running : Bool
  is_paused : Bool
  worker_thread_running : Bool
  ffmpeg_child_running : Bool
  deriving Repr, DecidableEq

/-- Embedding of `SonyToPhotoGUI.stop_task_queue`: it calls
`QThread.terminate()` and `wait()` on the worker thread, sets the status
of every task from the current index on to `已停止` (stopped), clears
the running and paused flags and resets the index to 0.  The
`subprocess.Popen` handle of the in-flight ffmpeg run is a local
variable of `transcode_core.run`; no statement on this path (nor
anywhere reachable from it) terminates or kills that child process, so
its running state is untouched by the embedding. -/
def stop_task_queue (s : QueueState) : QueueState :=
  { task_status := s.task_status.mapIdx
      (fun i st => if s.current_task_index ≤ i then "已停止" else st),
    current_task_index := 0,
    is_queue_running := false,
    is_paused := false,
    worker_thread_running := false,
    ffmpeg_child_running := s.ffmpeg_child_running }

lemma tags_infix_helper (a m c : List String) :
    hlg_color_args <:+: a ++ (m ++ (hlg_color_args ++ c)) :=
  ⟨a ++ m, c, by simp [List.append_assoc]⟩

lemma gpu_enc_args_tags (codec : String) (crf : Nat) (preset : String)
    (enc : Option String) :
    (∃ m, gpu_encoder_video_args codec crf preset enc = m ++ hlg_color_args) ∨
    x265_params ∈ gpu_encoder_video_args codec crf preset enc ∨
    x264_params ∈ gpu_encoder_video_args codec crf preset enc := by
  rcases enc with _ | e <;> simp only [gpu_encoder_video_args] <;>
    repeat' split
  all_goals
    first
      | exact Or.inl ⟨_, rfl⟩
      | (refine Or.inr (Or.inl ?_); simp; done)
      | (refine Or.inr (Or.inr ?_); simp; done)

lemma x265_params_has_tags :
    pyContains x265_params "colorprim=bt2020" = true ∧
    pyContains x265_params "transfer=arib-std-b67" = true ∧
    pyContains x265_params "colormatrix=bt2020nc" = true := by decide

lemma x264_params_has_tags :
    pyContains x264_params "colorprim=bt2020" = true ∧
    pyContains x264_params "transfer=arib-std-b67" = true ∧
    pyContains x264_params "colormatrix=bt2020nc" = true := by decide

/-- C1: for every codec and encoder choice (CPU, any recognized hardware
encoder, or an unrecognized identifier), the command built by
`build_ffmpeg_cmd_gpu` — and likewise every command built by
`transcode_core.build_ffmpeg_cmd` — contains the three fixed HLG color
tags (primaries bt2020, transfer arib-std-b67, matrix bt2020nc), either
as explicit color arguments or inside the x265/x264 parameter string;
the tag values are literals, so no input alters them. -/
theorem hlg_color_tags_always_present :
    (∀ (ffmpeg in_file out_file codec : String) (crf : Nat) (preset : String)
      (fps : Option String) (audio_bitrate : String) (overwrite : Bool)
      (gpu_encoder : Option String),
      has_hlg_color_tags (build_ffmpeg_cmd_gpu ffmpeg in_file out_file codec
        crf preset fps audio_bitrate overwrite gpu_encoder)) ∧
    (∀ (ffmpeg in_file out_file : String) (crf : Nat) (preset : String)
      (fps : Option String) (audio_bitrate : String) (overwrite : Bool),
      has_hlg_color_tags (build_ffmpeg_cmd ffmpeg in_file out_file crf preset
        fps audio_bitrate overwrite)) := by
  constructor
  · intro ffmpeg in_file out_file codec crf preset fps audio_bitrate overwrite
      gpu_encoder
    rcases gpu_enc_args_tags codec crf preset gpu_encoder with ⟨m, hm⟩ | h | h
    · refine Or.inl ?_
      unfold build_ffmpeg_cmd_gpu
      rw [hm]
      simp only [List.append_assoc]
      exact tags_infix_helper _ _ _
    · exact Or.inr ⟨x265_params,
        by unfold build_ffmpeg_cmd_gpu; simp [h],
        x265_params_has_tags.1, x265_params_has_tags.2.1,
        x265_params_has_tags.2.2⟩
    · exact Or.inr ⟨x264_params,
        by unfold build_ffmpeg_cmd_gpu; simp [h],
        x264_params_has_tags.1, x264_params_has_tags.2.1,
        x264_params_has_tags.2.2⟩
  · intro ffmpeg in_file out_file crf preset fps audio_bitrate overwrite
    exact Or.inr ⟨x265_params,
      by unfold build_ffmpeg_cmd; simp,
      x265_params_has_tags.1, x265_params_has_tags.2.1,
      x265_params_has_tags.2.2⟩

lemma counter_total_update (c : Nat × Nat × Nat) (r : Bool × String) :
    counter_total (update_counters c r) = counter_total c + 1 := by
  cases h : classify_result r.1 r.2 <;>
    simp [update_counters, counter_total, h] <;> omega

lemma batch_counts_total (l : List (Bool × String)) :
    ∀ acc, counter_total (l.foldl update_counters acc) =
      counter_total acc + l.length := by
  induction l with
  | nil => intro acc; simp
  | cons r rest ih =>
    intro acc
    rw [List.foldl_cons, ih (update_counters acc r), counter_total_update]
    simp [List.length_cons]
    omega

/-- C2: for N input files and any worker limit 1 ≤ W ≤ N, the final
`(ok, fail, skipped)` counters of `process_files_parallel` sum to N
under every completion interleaving — modelled as an arbitrary
permutation of per-file results applied by atomic (lock-protected)
`update_counters` calls — and each single update increments the total
by exactly one (no lost updates, no double counting). -/
theorem parallel_counts_sum (outcomes compl_order : List (Bool × String))
    (w : Nat) (hperm : compl_order.Perm outcomes) (h1 : 1 ≤ w)
    (h2 : w ≤ outcomes.length) :
    ((batch_counts compl_order).1 + (batch_counts compl_order).2.1 +
      (batch_counts compl_order).2.2 = outcomes.length) ∧
    (∀ c r, counter_total (update_counters c r) = counter_total c + 1) := by
  constructor
  · have h := batch_counts_total compl_order (0, 0, 0)
    rw [show counter_total ((0, 0, 0) : Nat × Nat × Nat) = 0 from rfl] at h
    have hlen := hperm.length_eq
    unfold batch_counts
    unfold counter_total at h
    omega
  · exact counter_total_update

/-- Witness for `parallel_counts_sum`: a concrete two-file batch whose
completion order is reversed relative to dispatch order. -/
theorem parallel_counts_sum_witness :
    (([((false : Bool), "FAILED: b.mov (exit code 1)"),
       ((true : Bool), "OK: a.mov")] :
        List (Bool × String)).Perm
      [((true : Bool), "OK: a.mov"),
       ((false : Bool), "FAILED: b.mov (exit code 1)")]) ∧
    ((batch_counts [((false : Bool), "FAILED: b.mov (exit code 1)"),
        ((true : Bool), "OK: a.mov")]).1 +
      (batch_counts [((false : Bool), "FAILED: b.mov (exit code 1)"),
        ((true : Bool), "OK: a.mov")]).2.1 +
      (batch_counts [((false : Bool), "FAILED: b.mov (exit code 1)"),
        ((true : Bool), "OK: a.mov")]).2.2 = 2) ∧
    counter_total (update_counters (0, 0, 0) ((true : Bool), "OK: a.mov")) =
      counter_total ((0 : Nat), (0 : Nat), (0 : Nat)) + 1 := by
  have hperm : ([((false : Bool), "FAILED: b.mov (exit code 1)"),
      ((true : Bool), "OK: a.mov")] : List (Bool × String)).Perm
      [((true : Bool), "OK: a.mov"),
       ((false : Bool), "FAILED: b.mov (exit code 1)")] :=
    List.Perm.swap _ _ _
  have h := parallel_counts_sum
    [((true : Bool), "OK: a.mov"), ((false : Bool), "FAILED: b.mov (exit code 1)")]
    [((false : Bool), "FAILED: b.mov (exit code 1)"), ((true : Bool), "OK: a.mov")]
    1 hperm (by decide) (by decide)
  exact ⟨hperm, h.1, h.2 (0, 0, 0) ((true : Bool), "OK: a.mov")⟩

/-- C3: the dispatch loop of `process_files_parallel` does NOT keep the
number of concurrently executing workers below the limit.  When every
started worker is still alive (`alive` constantly true), the single
non-waiting scan removes nothing and a new worker is started anyway, so
with `max_threads = 1` the thread list grows by one per file; in
particular dispatching two files leaves two concurrently alive workers,
exceeding the limit 1. -/
theorem dispatch_loop_exceeds_limit :
    (∀ (ids threads : List Nat),
      (dispatch_loop (fun _ => true) 1 threads ids).length =
        threads.length + ids.length) ∧
    dispatch_loop (fun _ => true) 1 [] [0, 1] = [0, 1] ∧
    1 < (dispatch_loop (fun _ => true) 1 [] [0, 1]).countP
      (fun t => (fun _ => true) t) := by
  refine ⟨?_, by decide, by decide⟩
  intro ids
  induction ids with
  | nil => intro threads; simp [dispatch_loop]
  | cons tid rest ih =>
    intro threads
    have hfind : threads.find? (fun t => !(fun _ => true) t) = none := by
      rw [List.find?_eq_none]
      intro x hx
      simp
    simp only [dispatch_loop, hfind]
    by_cases h : 1 ≤ threads.length
    · rw [if_pos h, ih (threads ++ [tid])]
      simp
      omega
    · rw [if_neg h, ih (threads ++ [tid])]
      simp
      omega

/-- C8: when the output exists, overwrite is off and skip-existing is
on, `process_file` returns the skip outcome without reaching any
external command; when overwrite is on the existence check never skips;
and the builders place `-y` (overwrite) rather than `-n` (no-clobber)
as the third argument exactly when overwrite is on. -/
theorem skip_and_overwrite_behavior :
    (∀ (name : String) (r : Bool × String),
      process_file_top name true false true r =
        ((true, "SKIP (exists): " ++ name), false)) ∧
    (∀ (name : String) (ex sk : Bool) (r : Bool × String),
      process_file_top name ex true sk r = (r, true)) ∧
    (∀ (ffmpeg i o : String) (crf : Nat) (preset : String)
      (fps : Option String) (ab : String),
      (build_ffmpeg_cmd ffmpeg i o crf preset fps ab true)[2]? = some "-y" ∧
      (build_ffmpeg_cmd ffmpeg i o crf preset fps ab false)[2]? = some "-n") ∧
    (∀ (ffmpeg i o codec : String) (crf : Nat) (preset : String)
      (fps : Option String) (ab : String) (enc : Option String),
      (build_ffmpeg_cmd_gpu ffmpeg i o codec crf preset fps ab true enc)[2]? =
        some "-y" ∧
      (build_ffmpeg_cmd_gpu ffmpeg i o codec crf preset fps ab false enc)[2]? =
        some "-n") := by
  refine ⟨?_, ?_, ?_, ?_⟩
  · intro name r
    rfl
  · intro name ex sk r
    simp [process_file_top, skip_check]
  · intro ffmpeg i o crf preset fps ab
    exact ⟨rfl, rfl⟩
  · intro ffmpeg i o codec crf preset fps ab enc
    exact ⟨rfl, rfl⟩

/-- C9: `stop_task_queue` marks every task at or after the current queue
position stopped, keeps completed tasks' statuses, resets the position
to 0 — but the in-flight ffmpeg child process is NOT terminated: only
the worker QThread is, and the child's running state is unchanged in
every state (the `Popen` handle is local to `transcode_core.run` and no
kill is issued on the stop path). -/
theorem stop_does_not_kill_child :
    (∀ s : QueueState,
      (stop_task_queue s).ffmpeg_child_running = s.ffmpeg_child_running ∧
      (stop_task_queue s).current_task_index = 0) ∧
    stop_task_queue
      ⟨["完成", "执行中", "等待中"], 1, true, false, true, true⟩ =
      ⟨["完成", "已停止", "已停止"], 0, false, false, false, true⟩ := by
  exact ⟨fun s => ⟨rfl, rfl⟩, by decide⟩

lemma containsChars_append_right (needle a b : List Char)
    (h : containsChars needle b = true) :
    containsChars needle (a ++ b) = true := by
  induction a with
  | nil => simpa using h
  | cons c rest ih =>
    simp only [List.cons_append, containsChars, Bool.or_eq_true]
    exact Or.inr ih

lemma containsChars_append_left (needle a b : List Char)
    (h : containsChars needle a = true) :
    containsChars needle (a ++ b) = true := by
  induction a with
  | nil =>
    simp only [containsChars, List.isEmpty_iff] at h
    subst h
    cases b with
    | nil => rfl
    | cons c r => simp [containsChars, List.isPrefixOf]
  | cons c rest ih =>
    simp only [containsChars, Bool.or_eq_true] at h
    simp only [List.cons_append, containsChars, Bool.or_eq_true]
    rcases h with h | h
    · left
      rw [List.isPrefixOf_iff_prefix] at h ⊢
      exact h.trans (List.prefix_append (c :: rest) b)
    · exact Or.inr (ih h)

lemma pyContains_append_right (a b needle : String)
    (h : pyContains b needle = true) :
    pyContains (a ++ b) needle = true := by
  unfold pyContains at h ⊢
  rw [String.data_append]
  exact containsChars_append_right _ _ _ h

lemma pyContains_append_left (a b needle : String)
    (h : pyContains a needle = true) :
    pyContains (a ++ b) needle = true := by
  unfold pyContains at h ⊢
  rw [String.data_append]
  exact containsChars_append_left _ _ _ h

/-- C10: the batch counters classify a result as skipped purely by the
message containing the substring `SKIP`, tested before the success
flag; since success messages embed the source file name, any file whose
name contains `SKIP` is counted as skipped even when its transcode
succeeded or failed. -/
theorem skip_substring_classification :
    (∀ (success : Bool) (message : String),
      pyContains message "SKIP" = true →
      classify_result success message = CounterKind.skippedKind) ∧
    (∀ (success : Bool) (name : String),
      pyContains name "SKIP" = true →
      classify_result success ("OK: " ++ name) = CounterKind.skippedKind ∧
      classify_result success ("FAILED: " ++ name ++ " (exit code 1)") =
        CounterKind.skippedKind) ∧
    classify_result true ("OK: " ++ "SKIPTRACE.mp4") =
      CounterKind.skippedKind := by
  refine ⟨?_, ?_, by decide⟩
  · intro success message h
    simp [classify_result, h]
  · intro success name h
    constructor
    · simp [classify_result, pyContains_append_right _ _ _ h]
    · have h2 : pyContains ("FAILED: " ++ name ++ " (exit code 1)") "SKIP" = true :=
        pyContains_append_left _ _ _ (pyContains_append_right _ _ _ h)
      simp [classify_result, h2]

/-- Witness for `skip_substring_classification`. -/
theorem skip_substring_classification_witness :
    pyContains "OK: SKIPTRACE.mp4" "SKIP" = true ∧
    classify_result false "OK: SKIPTRACE.mp4" = CounterKind.skippedKind := by
  exact ⟨by decide, skip_substring_classification.1 false "OK: SKIPTRACE.mp4" (by decide)⟩

lemma priority_order_nodup (codec : String) : (priority_order codec).Nodup := by
  unfold priority_order
  split
  · decide
  · decide

lemma add_priority_encoders_eq (keys : List String) :
    ∀ (ps acc : List String), ps.Nodup →
      add_priority_encoders keys acc ps =
        acc ++ ps.filter (fun p => decide (p ∈ keys ∧ p ∉ acc)) := by
  intro ps
  induction ps with
  | nil =>
    intro acc _
    simp [add_priority_encoders]
  | cons p rest ih =>
    intro acc hnd
    rw [List.nodup_cons] at hnd
    obtain ⟨hp, hrest⟩ := hnd
    simp only [add_priority_encoders]
    by_cases h : p ∈ keys ∧ p ∉ acc
    · rw [if_pos h, ih (acc ++ [p]) hrest, List.filter_cons]
      have hd : decide (p ∈ keys ∧ p ∉ acc) = true := by simpa using h
      rw [hd]
      have hfeq : rest.filter (fun q => decide (q ∈ keys ∧ q ∉ acc ++ [p])) =
          rest.filter (fun q => decide (q ∈ keys ∧ q ∉ acc)) := by
        apply List.filter_congr
        intro q hq
        have hqp : q ≠ p := by
          rintro rfl
          exact hp hq
        simp [decide_eq_decide, List.mem_append, hqp]
      rw [hfeq]
      simp
    · rw [if_neg h, ih acc hrest, List.filter_cons]
      have hd : decide (p ∈ keys ∧ p ∉ acc) = false := by simpa using h
      rw [hd]
      simp

/-- C4: with a successful probe, `process_file` builds the candidate
list as the requested encoder first (when probed) followed by the other
probed encoders in the fixed NVIDIA > Intel > AMD priority order
without duplicates; when the probe raises, the list is exactly the
originally requested encoder; when nothing usable is probed, the list
is the single CPU marker `none`, sending the executor straight to the
CPU path. -/
theorem gpu_candidate_selection (codec requested : String)
    (detected : List (String × String)) :
    (select_candidates codec requested none = [some requested]) ∧
    (requested ∈ detected.map Prod.fst →
      select_candidates codec requested (some detected) =
        (requested :: (priority_order codec).filter
          (fun p => decide (p ∈ detected.map Prod.fst ∧ p ≠ requested))).map
          some) ∧
    (requested ∉ detected.map Prod.fst →
      select_candidates codec requested (some detected) =
        (if ((priority_order codec).filter
            (fun p => decide (p ∈ detected.map Prod.fst))).isEmpty then
          [none]
         else ((priority_order codec).filter
            (fun p => decide (p ∈ detected.map Prod.fst))).map some)) ∧
    (select_candidates codec requested (some detected)).Nodup := by
  have hA : requested ∈ detected.map Prod.fst →
      select_candidates codec requested (some detected) =
        (requested :: (priority_order codec).filter
          (fun p => decide (p ∈ detected.map Prod.fst ∧ p ≠ requested))).map
          some := by
    intro h
    simp only [select_candidates, available_gpu_encoders]
    rw [if_pos h,
      add_priority_encoders_eq (detected.map Prod.fst) (priority_order codec)
        [requested] (priority_order_nodup codec)]
    have hfeq : (priority_order codec).filter
        (fun p => decide (p ∈ detected.map Prod.fst ∧ p ∉ [requested])) =
        (priority_order codec).filter
          (fun p => decide (p ∈ detected.map Prod.fst ∧ p ≠ requested)) := by
      apply List.filter_congr
      intro q _
      simp [decide_eq_decide]
    rw [hfeq]
    simp
  have hB : requested ∉ detected.map Prod.fst →
      select_candidates codec requested (some detected) =
        (if ((priority_order codec).filter
            (fun p => decide (p ∈ detected.map Prod.fst))).isEmpty then
          [none]
         else ((priority_order codec).filter
            (fun p => decide (p ∈ detected.map Prod.fst))).map some) := by
    intro h
    simp only [select_candidates, available_gpu_encoders]
    rw [if_neg h,
      add_priority_encoders_eq (detected.map Prod.fst) (priority_order codec)
        [] (priority_order_nodup codec)]
    have hfeq : (priority_order codec).filter
        (fun p => decide (p ∈ detected.map Prod.fst ∧ p ∉ ([] : List String))) =
        (priority_order codec).filter
          (fun p => decide (p ∈ detected.map Prod.fst)) := by
      apply List.filter_congr
      intro q _
      simp [decide_eq_decide]
    rw [List.nil_append, hfeq]
  refine ⟨rfl, hA, hB, ?_⟩
  by_cases h : requested ∈ detected.map Prod.fst
  · rw [hA h]
    refine List.Nodup.map (fun a b => by simp) ?_
    rw [List.nodup_cons]
    constructor
    · intro hmem
      rcases List.mem_filter.mp hmem with ⟨_, hdec⟩
      simp at hdec
    · exact (priority_order_nodup codec).filter _
  · rw [hB h]
    by_cases he : ((priority_order codec).filter
        (fun p => decide (p ∈ detected.map Prod.fst))).isEmpty
    · rw [if_pos he]
      exact List.nodup_singleton none
    · rw [if_neg he]
      exact List.Nodup.map (fun a b => by simp)
        ((priority_order_nodup codec).filter _)

/-- Witness for `gpu_candidate_selection`: AMD requested, NVIDIA also
detected; the candidate list is AMD first, then NVIDIA. -/
theorem gpu_candidate_selection_witness :
    ("hevc_amf" ∈ ([("hevc_amf", "AMD (hevc_amf)"),
        ("h265_nvenc", "NVIDIA (h265_nvenc)")].map Prod.fst)) ∧
    select_candidates "hevc" "hevc_amf"
      (some [("hevc_amf", "AMD (hevc_amf)"),
        ("h265_nvenc", "NVIDIA (h265_nvenc)")]) =
      [some "hevc_amf", some "h265_nvenc"] := by
  have h := (gpu_candidate_selection "hevc" "hevc_amf"
    [("hevc_amf", "AMD (hevc_amf)"),
     ("h265_nvenc", "NVIDIA (h265_nvenc)")]).2.1 (by decide)
  refine ⟨by decide, ?_⟩
  rw [h]
  decide

lemma try_encoders_cons_success (exitCode : Option String → Int)
    (requested name e : String) (rest : List (Option String))
    (h : exitCode (some e) = 0) :
    try_encoders exitCode requested name (some e :: rest) =
      ⟨true,
        if e == requested then ok_gpu_msg name
        else ok_brand_fallback_msg (encoder_brand e) name,
        some e⟩ := by
  simp only [try_encoders]
  rw [if_pos (by simp [h])]

lemma try_encoders_cons_fail (exitCode : Option String → Int)
    (requested name e : String) (rest : List (Option String))
    (h : exitCode (some e) ≠ 0) :
    try_encoders exitCode requested name (some e :: rest) =
      try_encoders exitCode requested name rest := by
  simp only [try_encoders]
  rw [if_neg (by simp [h])]

/-- C5: in the fallback chain, the first hardware candidate whose run
exits 0 produces the success outcome — plain `OK (GPU)` when it is the
requested encoder, a brand-named fallback message otherwise — and that
encoder is saved as last-successful; when every hardware candidate
exits non-zero, the CPU command runs as final fallback, giving the CPU
fallback outcome on exit 0 and a failed outcome carrying the CPU run's
exit code otherwise (and saving nothing). -/
theorem encoder_fallback_chain (exitCode : Option String → Int)
    (requested name : String) :
    (∀ (l1 : List String) (e : String) (l2 : List String),
      (∀ x ∈ l1, exitCode (some x) ≠ 0) → exitCode (some e) = 0 →
      try_encoders exitCode requested name ((l1 ++ e :: l2).map some) =
        ⟨true,
          if e == requested then ok_gpu_msg name
          else ok_brand_fallback_msg (encoder_brand e) name,
          some e⟩) ∧
    (∀ es : List String, (∀ x ∈ es, exitCode (some x) ≠ 0) →
      try_encoders exitCode requested name (es.map some) =
        (if exitCode none == 0 then ⟨true, ok_cpu_fallback_msg name, none⟩
         else ⟨false, failed_all_msg name (exitCode none), none⟩)) := by
  constructor
  · intro l1
    induction l1 with
    | nil =>
      intro e l2 _ h0
      rw [List.nil_append, List.map_cons]
      exact try_encoders_cons_success exitCode requested name e _ h0
    | cons x rest ih =>
      intro e l2 hfail h0
      rw [List.cons_append, List.map_cons,
        try_encoders_cons_fail exitCode requested name x _
          (hfail x (List.mem_cons_self x rest))]
      exact ih e l2 (fun y hy => hfail y (List.mem_cons_of_mem x hy)) h0
  · intro es
    induction es with
    | nil =>
      intro _
      rfl
    | cons x rest ih =>
      intro hfail
      rw [List.map_cons,
        try_encoders_cons_fail exitCode requested name x _
          (hfail x (List.mem_cons_self x rest))]
      exact ih (fun y hy => hfail y (List.mem_cons_of_mem x hy))

/-- Witness for `encoder_fallback_chain`: NVIDIA fails (exit 1), Intel
succeeds and is reported as the requested encoder; with Intel absent,
the CPU fallback succeeds. -/
theorem encoder_fallback_chain_witness :
    ((fun o => if o = some "h265_nvenc" then (1 : Int) else 0)
      (some "h265_nvenc") ≠ 0) ∧
    try_encoders (fun o => if o = some "h265_nvenc" then (1 : Int) else 0)
      "hevc_qsv" "a.mov" [some "h265_nvenc", some "hevc_qsv"] =
      ⟨true, ok_gpu_msg "a.mov", some "hevc_qsv"⟩ ∧
    try_encoders (fun o => if o = some "h265_nvenc" then (1 : Int) else 0)
      "hevc_qsv" "a.mov" [some "h265_nvenc"] =
      ⟨true, ok_cpu_fallback_msg "a.mov", none⟩ := by
  have h1 := (encoder_fallback_chain
    (fun o => if o = some "h265_nvenc" then (1 : Int) else 0)
    "hevc_qsv" "a.mov").1 ["h265_nvenc"] "hevc_qsv" []
    (by decide) (by decide)
  have h2 := (encoder_fallback_chain
    (fun o => if o = some "h265_nvenc" then (1 : Int) else 0)
    "hevc_qsv" "a.mov").2 ["h265_nvenc"] (by decide)
  refine ⟨by decide, ?_, ?_⟩
  · simpa using h1
  · simpa using h2

/-- C6: with the custom-filename policy, text `clip` and a batch of two
files, sequential mode resolves `clip_0001` / `clip_0002` (then the
suffix) as the claim states, but parallel mode passes the custom text
to `process_file` unchanged for every file, so all files of the batch
resolve to the same base name `clip` and the output names collide. -/
theorem custom_name_numbering_bug :
    sequential_custom_text true "clip" 2 0 = "clip_0001" ∧
    sequential_custom_text true "clip" 2 1 = "clip_0002" ∧
    sequential_resolved_name "a" false true "clip" false "T" "_hlg_phone" 2 0 =
      "clip_0001_hlg_phone" ∧
    sequential_resolved_name "a" false true "clip" false "T" "_hlg_phone" 2 1 =
      "clip_0002_hlg_phone" ∧
    parallel_resolved_name "a" false true "clip" false "T" "_hlg_phone" 0 =
      parallel_resolved_name "b" false true "clip" false "T" "_hlg_phone" 1 ∧
    parallel_resolved_name "a" false true "clip" false "T" "_hlg_phone" 0 =
      "clip_hlg_phone" := by
  refine ⟨by decide, by decide, by decide, by decide, by decide, by decide⟩

lemma str_eq_empty_iff (s : String) : s = "" ↔ s.data = [] := by
  constructor
  · intro h
    exact congrArg String.data h
  · intro h
    obtain ⟨d⟩ := s
    have h2 : d = [] := h
    subst h2
    rfl

lemma str_append_ne_left (s t : String) (h : s ≠ "") : s ++ t ≠ "" := by
  intro he
  apply h
  rw [str_eq_empty_iff] at he ⊢
  rw [String.data_append] at he
  exact (List.append_eq_nil.mp he).1

lemma str_append_ne_right (s t : String) (h : t ≠ "") : s ++ t ≠ "" := by
  intro he
  apply h
  rw [str_eq_empty_iff] at he ⊢
  rw [String.data_append] at he
  exact (List.append_eq_nil.mp he).2

/-- C7 counterexample: with the custom-filename policy, text `.mp4`,
timestamp off and empty suffix, the resolved base name is empty — the
claimed non-emptiness fails at this input. -/
theorem base_name_empty_counterexample :
    resolve_base_name "a" false true ".mp4" false "20240101_000000" "" = "" := by
  decide

/-- C7 (amended): for every combination of naming options the base name
is non-empty, EXCEPT when the custom-filename policy is active with
text whose stripped, `.mp4`-trimmed form is empty while the timestamp
flag is off and the custom suffix is empty (the source file stem is
non-empty for any discovered file). -/
theorem base_name_nonempty (stem : String) (keep custom : Bool)
    (text : String) (add_ts : Bool) (ts suf : String) (hstem : stem ≠ "")
    (hexc : ¬(custom = true ∧ text ≠ "" ∧ strip_mp4 (pyStrip text) = "" ∧
      add_ts = false ∧ suf = "")) :
    resolve_base_name stem keep custom text add_ts ts suf ≠ "" := by
  unfold resolve_base_name
  by_cases hsuf : suf = ""
  · subst hsuf
    rw [if_neg (by decide)]
    by_cases hts : add_ts = true
    · rw [if_pos hts]
      exact str_append_ne_left _ _ (str_append_ne_right _ _ (by decide))
    · rw [if_neg hts]
      by_cases hc : (custom && !(text == "")) = true
      · rw [if_pos hc]
        intro h0
        apply hexc
        have hc12 : custom = true ∧ (!(text == "")) = true := by
          simpa using hc
        refine ⟨hc12.1, ?_, h0, by simpa using hts, rfl⟩
        intro htext
        have hc2 := hc12.2
        rw [htext] at hc2
        simp at hc2
      · rw [if_neg hc]
        by_cases hk : keep = true
        · rw [if_pos hk]
          exact hstem
        · rw [if_neg hk]
          exact str_append_ne_left _ _ (by decide)
  · rw [if_pos (by simpa using hsuf)]
    exact str_append_ne_right _ _ hsuf

/-- Witness for `base_name_nonempty`: keep-original naming with default
suffix yields a non-empty base name. -/
theorem base_name_nonempty_witness :
    ("a" : String) ≠ "" ∧
    resolve_base_name "a" true false "" false "T" "_hlg_phone" ≠ "" :=
  ⟨by decide,
    base_name_nonempty "a" true false "" false "T" "_hlg_phone"
      (by decide) (by decide)⟩
